import Mathlib

/-!
Shallow embedding of the webpa-common control-plane sources:
  - src/tracing/spanError.go    (SpanError carrier type)
  - src/unnamed/part_000        (wrphttp request/response encoders)
  - src/device/handlers.go      (MessageHandler.ServeHTTP, NewDeviceListHandler)

Byte slices are modelled as `List Nat`, Go `error` interface values as
`Option GoError` (`none` models a nil interface value), HTTP headers as an
association list manipulated with Set/Add/Get operations mirroring
net/http.Header, and the observable effects of an HTTP handler as a list of
write events.  External collaborator functions (wrp encoder/decoder pools,
the Router, NewRequest) are parameters of the model, mirroring the Go
struct fields and package-level collaborators they correspond to.
-/

/-- Go byte slices. -/
abbrev Bytes := List Nat

/-- WRP wire formats handled by the codec layer (wrp.Format). -/
inductive Format where
  | Msgpack
  | JSON
deriving DecidableEq, Repr

/-- Modelled from the spec: every wire format has a fixed content-type
identifier (`wrp.Format.ContentType`, whose source is not shown); the exact
strings are immaterial, only that they are a function of the format. -/
def contentTypeOf : Format → String
  | .Msgpack => "application/msgpack"
  | .JSON => "application/json"

/-- The routable fields of a wrp.Message: destination, type discriminator,
payload. -/
structure Message where
  destination : String
  msgType : Nat
  payload : Bytes
deriving DecidableEq, Repr

/-- A Go error value carrying a message (the result of Error()). -/
structure GoError where
  message : String
deriving DecidableEq, Repr

/- ===== HTTP header model (net/http.Header semantics) ===== -/

/-- http.Header.Set: replaces all existing values for the key with the
single given value. -/
def headerSet (h : List (String × String)) (key value : String) :
    List (String × String) :=
  (h.filter (fun p => !(p.1 == key))) ++ [(key, value)]

/-- http.Header.Add: appends a value for the key. -/
def headerAdd (h : List (String × String)) (key value : String) :
    List (String × String) :=
  h ++ [(key, value)]

/-- http.Header.Get: first value associated with the key, if any. -/
def headerGet (h : List (String × String)) (key : String) : Option String :=
  (h.find? (fun p => p.1 == key)).map Prod.snd

/- ===== src/tracing/spanError.go ===== -/

/-- A trace span (tracing.Span): a timing/outcome record. Only identity
matters for the claims, so it is an opaque record. -/
structure Span where
  name : String
  durationMs : Nat
  errText : Option String
deriving DecidableEq, Repr

/-- The spanError struct from src/tracing/spanError.go: a wrapped error
(`err`, possibly a nil interface value) and the attached spans. -/
structure SpanError where
  err : Option GoError
  spans : List Span
deriving DecidableEq, Repr

/-- NewSpanError from src/tracing/spanError.go: stores the error and the
span slice, nothing else. -/
def NewSpanError (err : Option GoError) (spans : List Span) : SpanError :=
  { err := err, spans := spans }

/-- spanError.Error(): returns se.err.Error().  When the wrapped error is a
nil interface value the Go call dereferences nil and panics; the model
returns `none` for that case and `some` of the message otherwise. -/
def SpanError.errorCall (se : SpanError) : Option String :=
  se.err.map GoError.message

/-- spanError.Spans(): returns the stored slice. -/
def SpanError.spansCall (se : SpanError) : List Span :=
  se.spans

/-- spanError.Err(): returns the stored error. -/
def SpanError.errCall (se : SpanError) : Option GoError :=
  se.err

/- ===== Claim theorems for the tracing component ===== -/

/-- C7: NewSpanError(err, spans...) is a pure carrier: Error() returns
exactly the wrapped error's message (spans never change it), Spans()
returns exactly the given sequence, and Err() returns exactly the given
error, for every error and every span sequence (including the empty one). -/
theorem newSpanError_carrier (e : GoError) (spans : List Span) :
    (NewSpanError (some e) spans).errorCall = some e.message
    ∧ (NewSpanError (some e) spans).spansCall = spans
    ∧ (NewSpanError (some e) spans).errCall = some e := by
  refine ⟨rfl, rfl, rfl⟩

/-- C9: NewSpanError validates nothing: with a non-nil wrapped error,
Error() is total and returns the message; with a nil wrapped error the
Error() branch dereferences nil (modelled as `none`, the absence of any
returned message), so only non-nil errors may be wrapped safely. -/
theorem newSpanError_nil_unsafe (spans : List Span) :
    (NewSpanError none spans).errorCall = none
    ∧ ∀ e : GoError, (NewSpanError (some e) spans).errorCall = some e.message := by
  exact ⟨rfl, fun e => rfl⟩

/- ===== src/unnamed/part_000 (package wrphttp) ===== -/

/-- The wrphttp Entity: a decoded Message together with the original wire
bytes and their format tag. -/
structure Entity where
  format : Format
  contents : Bytes
  message : Message
deriving DecidableEq, Repr

/-- The parts of an http.Request the encoders touch: headers, body and
ContentLength. -/
structure HttpRequest where
  header : List (String × String)
  body : Bytes
  contentLength : Nat
deriving DecidableEq, Repr

/-- Modelled from the spec: the fixed, reserved header naming the
destination field (wrphttp.DestinationHeader, whose definition is not in
the shown source); the exact name is immaterial, only that it is one fixed
string. -/
def DestinationHeader : String := "X-Webpa-Device-Name"

/-- Modelled from the spec: the reserved header carrying the message-type
discriminator in header-style encoding. -/
def MessageTypeHeader : String := "X-Midt-Msg-Type"

/-- wrphttp.EncodeRequest(format) applied to an Entity.  `enc` models
wrp.NewEncoderBytes(..., format).Encode: serialization of a Message into
the given format.  The second component of the result counts how many
times the encoder ran (0 or 1), so the short-circuit is observable. -/
def EncodeRequest (enc : Format → Message → Except String Bytes)
    (format : Format) (component : HttpRequest) (entity : Entity) :
    Except String (HttpRequest × Nat) :=
  if format = entity.format ∧ entity.contents.length > 0 then
    Except.ok
      ({ header := headerSet
            (headerSet component.header "Content-Type" (contentTypeOf format))
            DestinationHeader entity.message.destination
         body := entity.contents
         contentLength := entity.contents.length }, 0)
  else
    match enc format entity.message with
    | .error e => .error e
    | .ok transcoded =>
        Except.ok
          ({ header := headerSet
                (headerSet component.header "Content-Type" (contentTypeOf format))
                DestinationHeader entity.message.destination
             body := transcoded
             contentLength := transcoded.length }, 1)

/-- wrphttp.ClientEncodeRequestBody(format, custom) applied to a
wrpendpoint.Request (modelled by its Message; Encode and Destination() are
derived from it).  Custom headers are Added first, then the destination and
content-type headers are Set, matching the source order. -/
def ClientEncodeRequestBody (enc : Format → Message → Except String Bytes)
    (format : Format) (custom : List (String × String))
    (httpRequest : HttpRequest) (wrpRequest : Message) :
    Except String HttpRequest :=
  match enc format wrpRequest with
  | .error e => .error e
  | .ok body =>
      let h := custom.foldl (fun acc p => headerAdd acc p.1 p.2) httpRequest.header
      let h := headerSet h DestinationHeader wrpRequest.destination
      let h := headerSet h "Content-Type" (contentTypeOf format)
      Except.ok { header := h, body := body, contentLength := body.length }

/-- Modelled from the spec: wrphttp.AddMessageHeaders (not in the shown
source) distributes the scalar Message fields across the reserved headers,
one header per field — the message type and, last, the destination. -/
def AddMessageHeaders (h : List (String × String)) (m : Message) :
    List (String × String) :=
  headerSet (headerSet h MessageTypeHeader (toString m.msgType))
    DestinationHeader m.destination

/-- Modelled from the spec: wrphttp.WriteMessagePayload (not in the shown
source) writes the message payload verbatim as the body. -/
def WriteMessagePayload (m : Message) : Bytes :=
  m.payload

/-- wrphttp.ClientEncodeRequestHeaders(custom): writes the payload as the
body, Adds the custom headers, then distributes the message fields into
headers via AddMessageHeaders, matching the source order. -/
def ClientEncodeRequestHeaders (custom : List (String × String))
    (httpRequest : HttpRequest) (wrpRequest : Message) : HttpRequest :=
  let body := WriteMessagePayload wrpRequest
  let h := custom.foldl (fun acc p => headerAdd acc p.1 p.2) httpRequest.header
  let h := AddMessageHeaders h wrpRequest
  { header := h, body := body, contentLength := body.length }

/-- A wrpendpoint.Response as the wrphttp response encoders see it: a
message plus attached trace spans. -/
structure WrpResponse where
  message : Message
  spans : List Span
deriving DecidableEq, Repr

/-- Modelled from the spec: tracinghttp.HeadersForSpans (not in the shown
source) adds, for each span, a time-layout-dependent set of headers
representing its start/end/outcome to the given header map. -/
def HeadersForSpans (spans : List Span) (timeLayout : String)
    (h : List (String × String)) : List (String × String) :=
  spans.foldl
    (fun acc s =>
      headerAdd acc "X-Xmidt-Span"
        (s.name ++ "," ++ timeLayout ++ "," ++ toString s.durationMs))
    h

/-- wrphttp.ServerEncodeResponseBody(timeLayout, format): adds the span
headers first, then encodes the response message in `format`; on encoder
success the content type is set and the encoded bytes are the body. -/
def ServerEncodeResponseBody (enc : Format → Message → Except String Bytes)
    (timeLayout : String) (format : Format) (h : List (String × String))
    (wrpResponse : WrpResponse) :
    Except String (List (String × String) × Bytes) :=
  let h := HeadersForSpans wrpResponse.spans timeLayout h
  match enc format wrpResponse.message with
  | .error e => .error e
  | .ok output => Except.ok (headerSet h "Content-Type" (contentTypeOf format), output)

/- ===== src/device/handlers.go: MessageHandler ===== -/

/-- A device.Router error as MessageHandler classifies it: either the
distinguished ErrorDeviceNotFound value or any other error. -/
inductive RouteError where
  | deviceNotFound
  | other (message : String)
deriving DecidableEq, Repr

/-- The Error() text of a route error (the text of ErrorDeviceNotFound is
not in the shown source; only its identity matters). -/
def RouteError.text : RouteError → String
  | .deviceNotFound => "device not found"
  | .other m => m

/-- A device.Request as NewRequest produces it: the routable message and
the contents forwarded on the wire. -/
structure DeviceRequest where
  message : Message
  contents : Bytes
deriving DecidableEq, Repr

/-- A device.Response: the reply message, its on-the-wire contents, and the
optional device-reported (application-level) error. -/
structure DeviceResponse where
  message : Message
  contents : Bytes
  error : Option GoError
deriving DecidableEq, Repr

/-- The collaborators of device.MessageHandler, mirroring its struct
fields: a request decoder pool (format plus decode function), an optional
device encoder pool, an optional response encoder pool (its content type
plus encode function), the NewRequest constructor and the Router.  Route
returns a Go (response, error) pair, each possibly nil. -/
structure MessageHandlerModel where
  requestDecoders : Format × (Bytes → Except String Message)
  deviceEncoders : Option (Format × (Message → Except String Bytes))
  responseEncoders : Option (String × (DeviceResponse → Except String Bytes))
  newRequest : Message → Bytes → Except String DeviceRequest
  route : DeviceRequest → Option RouteError × Option DeviceResponse

/-- One observable effect of ServeHTTP on the http.ResponseWriter (or the
logger): an httperror.Formatf status-plus-message write, a header set, a
body write, or a logger error. -/
inductive WriteEvent where
  | errorWrite (status : Nat) (message : String)
  | headerWrite (name value : String)
  | bodyWrite (bytes : Bytes)
  | logWrite (message : String)
deriving DecidableEq, Repr

/-- Whether an event is an httperror.Formatf error write. -/
def isErrorWrite : WriteEvent → Bool
  | .errorWrite _ _ => true
  | _ => false

/-- Lines 85-97 of handlers.go: when a device encoder pool is configured
the decoded message is re-encoded (the inbound bytes are truncated and
overwritten); otherwise the inbound body bytes are kept as the contents. -/
def deviceTranscode (mh : MessageHandlerModel) (body : Bytes)
    (message : Message) : Except String Bytes :=
  match mh.deviceEncoders with
  | none => Except.ok body
  | some p => p.2 message

/-- MessageHandler.ServeHTTP from src/device/handlers.go, as a function of
the request body bytes.  Returns the ordered write events and, when
NewRequest was reached, the (message, contents) pair passed to it.  In the
branch where the routed response carries a device-reported error, the Go
source formats the shadowed route error `err` — which is nil in that
branch — so the written text is the constant fmt rendering of a nil error,
independent of deviceResponse.Error. -/
def ServeHTTP (mh : MessageHandlerModel) (body : Bytes) :
    List WriteEvent × Option (Message × Bytes) :=
  match (mh.requestDecoders).2 body with
  | .error e =>
      ([.errorWrite 400 ("Could not decode WRP message: " ++ e)], none)
  | .ok message =>
    match deviceTranscode mh body message with
    | .error e =>
        ([.errorWrite 500 ("Could not encode WRP message: " ++ e)], none)
    | .ok contents =>
      match mh.newRequest message contents with
      | .error e =>
          ([.errorWrite 400 ("Could not create device request: " ++ e)],
            some (message, contents))
      | .ok deviceRequest =>
        match mh.route deviceRequest with
        | (some re, _) =>
            ([.errorWrite (if re = RouteError.deviceNotFound then 404 else 500)
                ("Could not process device request: " ++ re.text)],
              some (message, contents))
        | (none, none) => ([], some (message, contents))
        | (none, some deviceResponse) =>
          match deviceResponse.error with
          | some _ =>
              ([.errorWrite 500 "Device transaction failed: %!s(<nil>)"],
                some (message, contents))
          | none =>
            match mh.responseEncoders with
            | some (contentType, respEnc) =>
                match respEnc deviceResponse with
                | .ok out =>
                    ([.headerWrite "Content-Type" contentType, .bodyWrite out],
                      some (message, contents))
                | .error e =>
                    ([.headerWrite "Content-Type" contentType,
                        .logWrite ("Error while encoding WRP response: " ++ e)],
                      some (message, contents))
            | none =>
                ([.headerWrite "Content-Type" (contentTypeOf Format.Msgpack),
                    .bodyWrite deviceResponse.contents],
                  some (message, contents))

/- ===== src/device/handlers.go: NewDeviceListHandler ===== -/

deriving instance DecidableEq for Except

/-- A registered device as the listing handler sees it: its ID and the
outcome of json.Marshal on it (encoding/json is an external collaborator,
so its per-device result is part of the input). -/
structure Device where
  id : String
  marshalResult : Except String String
deriving DecidableEq, Repr

/-- Line 197 of handlers.go: the message produced when marshalling a
device fails. -/
def marshalErrorMessage (d : Device) (e : String) : String :=
  "Unable to marshal device [" ++ d.id ++ "] as JSON: " ++ e

/-- Lines 196-202 of handlers.go: the chunk written for one device — the
marshalled JSON on success, or the error message wrapped in double quotes
(with no escaping) on failure. -/
def deviceEntryString (d : Device) : String :=
  match d.marshalResult with
  | .ok data => data
  | .error e => "\"" ++ marshalErrorMessage d e ++ "\""

/-- The consumer loop of NewDeviceListHandler (lines 189-205): one chunk
per write call, a "," before every entry except the first, tracked by the
needsDelimiter flag exactly as in the source.  The channel, goroutine and
WaitGroup deliver the devices to this loop in VisitAll order and join
before the closing token, so the loop is modelled sequentially over that
order. -/
def deviceListChunks : List Device → Bool → List String
  | [], _ => []
  | d :: rest, needsDelimiter =>
      (if needsDelimiter then [","] else []) ++ [deviceEntryString d]
        ++ deviceListChunks rest true

/-- NewDeviceListHandler (lines 172-216): the ordered chunks written to the
response — the opening token, the delimited entries, then (only after the
WaitGroup join) the closing token. -/
def deviceListOutput (devices : List Device) : List String :=
  ["\x7b\"device\": ["] ++ deviceListChunks devices false ++ ["]\x7d"]

/-- Spec-shaped companion for the listing claims: the entry chunks with a
"," chunk interleaved between consecutive entries. -/
def commaInterleave : List String → List String
  | [] => []
  | [s] => [s]
  | s :: rest => s :: "," :: commaInterleave rest

/-- Recognizer for the body of an escape-free JSON string literal: every
character before the final quote is neither a quote nor a backslash. -/
def isEscapeFreeBody : List Char → Bool
  | [] => false
  | [c] => c == '"'
  | c :: rest => !(c == '"') && !(c == '\\') && isEscapeFreeBody rest

/-- A chunk is a well-formed escape-free JSON string literal: an opening
quote, a body free of quotes and backslashes, and a closing quote. -/
def isEscapeFreeJsonString (s : String) : Bool :=
  match s.data with
  | '"' :: rest => isEscapeFreeBody rest
  | _ => false

/- ===== Helper lemmas ===== -/

theorem headerGet_headerSet_self (h : List (String × String)) (k v : String) :
    headerGet (headerSet h k v) k = some v := by
  unfold headerGet headerSet
  rw [List.find?_append]
  have hnone : (h.filter (fun p => !(p.1 == k))).find? (fun p => p.1 == k)
      = none := by
    rw [List.find?_eq_none]
    intro x hx
    have hmem := List.of_mem_filter hx
    simp only [Bool.not_eq_true'] at hmem
    simp [hmem]
  rw [hnone]
  simp

theorem headerGet_headerSet_ne (h : List (String × String)) (k k' v : String)
    (hne : (k == k') = false) :
    headerGet (headerSet h k v) k' = headerGet h k' := by
  unfold headerGet headerSet
  induction h with
  | nil => simp [hne]
  | cons p t ih =>
      by_cases hp : p.1 == k
      · have hpk : p.1 = k := by simpa using hp
        have : (p.1 == k') = false := by
          subst hpk
          exact hne
        simp [hp, this]
        simpa using ih
      · simp only [List.filter_cons]
        by_cases hq : p.1 == k'
        · simp [hp, hq]
        · simp [hp, hq] at *
          simpa using ih

theorem deviceListChunks_true_eq (l : List Device) :
    deviceListChunks l true =
      match l.map deviceEntryString with
      | [] => []
      | es => "," :: commaInterleave es := by
  induction l with
  | nil => rfl
  | cons d rest ih =>
      cases rest with
      | nil => rfl
      | cons d2 rest2 =>
          simp only [deviceListChunks, List.map_cons] at *
          rw [ih]
          rfl

theorem deviceListChunks_eq (l : List Device) :
    deviceListChunks l false = commaInterleave (l.map deviceEntryString) := by
  cases l with
  | nil => rfl
  | cons d rest =>
      simp only [deviceListChunks, List.map_cons]
      rw [deviceListChunks_true_eq]
      cases hr : rest.map deviceEntryString with
      | nil =>
          have : rest = [] := by
            cases rest with
            | nil => rfl
            | cons a b => simp at hr
          subst this
          rfl
      | cons e es =>
          cases rest with
          | nil => simp at hr
          | cons a b =>
              simp only [commaInterleave]
              simp [hr]

theorem serveHTTP_forwarded (mh : MessageHandlerModel) (body : Bytes)
    (message : Message) (contents : Bytes)
    (h1 : (mh.requestDecoders).2 body = Except.ok message)
    (h2 : deviceTranscode mh body message = Except.ok contents) :
    (ServeHTTP mh body).2 = some (message, contents) := by
  unfold ServeHTTP
  simp only [h1, h2]
  repeat' split
  all_goals rfl

/- ===== Claim theorems: wrphttp encoders ===== -/

/-- C1: the request encoder produced by EncodeRequest(format) short-circuits:
when the entity's Contents are non-empty and its Format equals the target
format, the body is exactly the Contents bytes with ContentLength their
length and the encoder is never called (call count 0); otherwise the
entity's Message is re-encoded into the target format, that transcoded byte
sequence becomes the body (call count 1), and an encoder failure is
returned as the error. -/
theorem encodeRequest_short_circuit (enc : Format → Message → Except String Bytes)
    (format : Format) (component : HttpRequest) (entity : Entity) :
    (entity.format = format → entity.contents ≠ [] →
        EncodeRequest enc format component entity =
          Except.ok
            ({ header := headerSet
                  (headerSet component.header "Content-Type" (contentTypeOf format))
                  DestinationHeader entity.message.destination
               body := entity.contents
               contentLength := entity.contents.length }, 0))
    ∧ (¬(entity.format = format ∧ entity.contents ≠ []) →
        (∀ transcoded, enc format entity.message = Except.ok transcoded →
            EncodeRequest enc format component entity =
              Except.ok
                ({ header := headerSet
                      (headerSet component.header "Content-Type" (contentTypeOf format))
                      DestinationHeader entity.message.destination
                   body := transcoded
                   contentLength := transcoded.length }, 1))
        ∧ (∀ e, enc format entity.message = Except.error e →
            EncodeRequest enc format component entity = Except.error e)) := by
  constructor
  · intro hf hc
    unfold EncodeRequest
    rw [if_pos ⟨hf.symm, List.length_pos.mpr hc⟩]
  · intro hn
    have hcond : ¬(format = entity.format ∧ entity.contents.length > 0) := by
      rintro ⟨ha, hb⟩
      exact hn ⟨ha.symm, List.length_pos.mp hb⟩
    constructor
    · intro transcoded ht
      unfold EncodeRequest
      rw [if_neg hcond, ht]
    · intro e he
      unfold EncodeRequest
      rw [if_neg hcond, he]

def encW1 : Format → Message → Except String Bytes := fun _ _ => Except.ok [1, 2]

def msgW1 : Message := { destination := "mac:112233445566", msgType := 3, payload := [] }

def entW1 : Entity := { format := Format.JSON, contents := [5], message := msgW1 }

def compW1 : HttpRequest := { header := [], body := [], contentLength := 0 }

theorem encodeRequest_short_circuit_witness :
    EncodeRequest encW1 Format.JSON compW1 entW1 =
      Except.ok
        ({ header := headerSet
              (headerSet compW1.header "Content-Type" (contentTypeOf Format.JSON))
              DestinationHeader entW1.message.destination
           body := [5]
           contentLength := 1 }, 0)
    ∧ EncodeRequest encW1 Format.Msgpack compW1 entW1 =
      Except.ok
        ({ header := headerSet
              (headerSet compW1.header "Content-Type" (contentTypeOf Format.Msgpack))
              DestinationHeader entW1.message.destination
           body := [1, 2]
           contentLength := 2 }, 1) :=
  ⟨(encodeRequest_short_circuit encW1 Format.JSON compW1 entW1).1 rfl (by decide),
   ((encodeRequest_short_circuit encW1 Format.Msgpack compW1 entW1).2 (by decide)).1
     [1, 2] rfl⟩

/-- C6: every outbound request produced by the three request encoders
carries the reserved destination header set to the message's destination —
EncodeRequest and ClientEncodeRequestBody even though the full message is
in the body, and ClientEncodeRequestHeaders through the header
distribution. -/
theorem destinationHeader_always_set
    (enc : Format → Message → Except String Bytes) (format : Format)
    (custom : List (String × String)) (component : HttpRequest)
    (entity : Entity) (wrpRequest : Message) :
    (∀ req calls,
        EncodeRequest enc format component entity = Except.ok (req, calls) →
        headerGet req.header DestinationHeader = some entity.message.destination)
    ∧ (∀ req,
        ClientEncodeRequestBody enc format custom component wrpRequest
            = Except.ok req →
        headerGet req.header DestinationHeader = some wrpRequest.destination)
    ∧ headerGet (ClientEncodeRequestHeaders custom component wrpRequest).header
        DestinationHeader = some wrpRequest.destination := by
  refine ⟨?_, ?_, ?_⟩
  · intro req calls hok
    unfold EncodeRequest at hok
    split at hok
    · simp only [Except.ok.injEq, Prod.mk.injEq] at hok
      rw [← hok.1]
      exact headerGet_headerSet_self _ _ _
    · split at hok
      · cases hok
      · simp only [Except.ok.injEq, Prod.mk.injEq] at hok
        rw [← hok.1]
        exact headerGet_headerSet_self _ _ _
  · intro req hok
    unfold ClientEncodeRequestBody at hok
    split at hok
    · cases hok
    · simp only [Except.ok.injEq] at hok
      rw [← hok]
      rw [headerGet_headerSet_ne _ _ _ _ (by decide)]
      exact headerGet_headerSet_self _ _ _
  · show headerGet (AddMessageHeaders _ wrpRequest) DestinationHeader = _
    unfold AddMessageHeaders
    exact headerGet_headerSet_self _ _ _

def encW6 : Format → Message → Except String Bytes := fun _ m => Except.ok m.payload

def msgW6 : Message := { destination := "mac:aa", msgType := 4, payload := [7] }

def entW6 : Entity := { format := Format.JSON, contents := [9], message := msgW6 }

def compW6 : HttpRequest := { header := [("Accept", "x")], body := [], contentLength := 0 }

def reqW6a : HttpRequest :=
  { header := headerSet (headerSet compW6.header "Content-Type" (contentTypeOf Format.JSON))
      DestinationHeader "mac:aa"
    body := [9]
    contentLength := 1 }

def reqW6b : HttpRequest :=
  { header := headerSet (headerSet compW6.header DestinationHeader "mac:aa")
      "Content-Type" (contentTypeOf Format.JSON)
    body := [7]
    contentLength := 1 }

theorem destinationHeader_always_set_witness :
    headerGet reqW6a.header DestinationHeader = some "mac:aa"
    ∧ headerGet reqW6b.header DestinationHeader = some "mac:aa"
    ∧ headerGet (ClientEncodeRequestHeaders [] compW6 msgW6).header
        DestinationHeader = some "mac:aa" :=
  ⟨(destinationHeader_always_set encW6 Format.JSON [] compW6 entW6 msgW6).1 reqW6a 0 rfl,
   (destinationHeader_always_set encW6 Format.JSON [] compW6 entW6 msgW6).2.1 reqW6b rfl,
   (destinationHeader_always_set encW6 Format.JSON [] compW6 entW6 msgW6).2.2⟩

/- ===== Claim theorems: device-listing handler ===== -/

/-- C5: for every list of devices the manager yields — every length N,
including N above the internal channel capacity of 100, which only bounds
in-flight buffering and never drops entries — the listing handler writes
the opening token, exactly N entries with a "," before every entry except
the first, and then the closing token, which comes only after all N
entries. -/
theorem deviceListHandler_shape (devices : List Device) :
    deviceListOutput devices =
      ["\x7b\"device\": ["]
        ++ commaInterleave (devices.map deviceEntryString)
        ++ ["]\x7d"]
    ∧ (devices.map deviceEntryString).length = devices.length := by
  constructor
  · unfold deviceListOutput
    rw [deviceListChunks_eq]
  · simp

theorem isEscapeFreeBody_append_quote (l : List Char)
    (h : l.all (fun c => !(c == '"') && !(c == '\\')) = true) :
    isEscapeFreeBody (l ++ ['"']) = true := by
  induction l with
  | nil => rfl
  | cons c cs ih =>
      simp only [List.all_cons, Bool.and_eq_true] at h
      obtain ⟨hc, hcs⟩ := h
      cases cs with
      | nil =>
          simp only [List.nil_append, List.cons_append]
          simp [isEscapeFreeBody, hc.1, hc.2]
      | cons c2 cs2 =>
          simp only [List.cons_append] at *
          simp [isEscapeFreeBody, hc.1, hc.2, ih hcs]

def devBad : Device := { id := "a\"b", marshalResult := Except.error "boom" }

/-- C10 counterexample: a device whose ID contains a double quote and whose
marshalling fails produces the array entry
  "Unable to marshal device [a"b] as JSON: boom"
which contains raw interior quotes — it is not a well-formed JSON string,
so the enclosing JSON structure of the listing is not well-formed there,
refuting the claim as stated. -/
theorem deviceList_marshal_wellformed_cex :
    deviceListOutput [devBad] =
      ["\x7b\"device\": [",
        "\"Unable to marshal device [a\"b] as JSON: boom\"",
        "]\x7d"]
    ∧ isEscapeFreeJsonString
        "\"Unable to marshal device [a\"b] as JSON: boom\"" = false := by
  exact ⟨rfl, rfl⟩

/-- C10 (amended): when marshalling a visited device fails the handler does
not abort or skip the entry: the error message, wrapped in double quotes
with no escaping, takes the place of that device's JSON object, the devices
after it are still streamed, and every visited device contributes exactly
one array entry; the substituted entry is a well-formed JSON string
provided the device ID and the marshal error text contain no double-quote
or backslash characters. -/
theorem deviceList_marshal_failure (pre post : List Device) (d : Device)
    (e : String) (hm : d.marshalResult = Except.error e) :
    deviceListOutput (pre ++ d :: post) =
      ["\x7b\"device\": ["]
        ++ commaInterleave (pre.map deviceEntryString
              ++ ("\"" ++ marshalErrorMessage d e ++ "\"")
                :: post.map deviceEntryString)
        ++ ["]\x7d"]
    ∧ ((d.id.data ++ e.data).all (fun c => !(c == '"') && !(c == '\\')) = true →
        isEscapeFreeJsonString (deviceEntryString d) = true) := by
  constructor
  · unfold deviceListOutput
    rw [deviceListChunks_eq]
    simp [deviceEntryString, hm]
  · intro hclean
    simp only [List.all_append, Bool.and_eq_true] at hclean
    have hentry : deviceEntryString d = "\"" ++ marshalErrorMessage d e ++ "\"" := by
      simp [deviceEntryString, hm]
    rw [hentry]
    unfold isEscapeFreeJsonString
    have hdata : ("\"" ++ marshalErrorMessage d e ++ "\"").data
        = '"' :: ((marshalErrorMessage d e).data ++ ['"']) := by
      simp [String.data_append]
    rw [hdata]
    apply isEscapeFreeBody_append_quote
    unfold marshalErrorMessage
    simp only [String.data_append, List.all_append, Bool.and_eq_true]
    exact ⟨⟨⟨by decide, hclean.1⟩, by decide⟩, hclean.2⟩

def devW10ok : Device := { id := "mac:11", marshalResult := Except.ok "\x7b\x7d" }

def devW10 : Device := { id := "mac:10", marshalResult := Except.error "nope" }

theorem deviceList_marshal_failure_witness :
    deviceListOutput [devW10ok, devW10] =
      ["\x7b\"device\": ["]
        ++ commaInterleave (([devW10ok].map deviceEntryString)
              ++ ("\"" ++ marshalErrorMessage devW10 "nope" ++ "\"")
                :: ([] : List Device).map deviceEntryString)
        ++ ["]\x7d"]
    ∧ isEscapeFreeJsonString (deviceEntryString devW10) = true := by
  have h := deviceList_marshal_failure [devW10ok] [] devW10 "nope" rfl
  exact ⟨h.1, h.2 (by decide)⟩

/- ===== Claim theorems: MessageHandler.ServeHTTP ===== -/

/-- C2: the written HTTP status is determined by the outcome — a
request-body decode failure yields 400; a Route error equal to
ErrorDeviceNotFound yields 404 and any other non-nil Route error 500; a
non-nil routed response with a non-nil Error yields 500 — and in every
execution at most one error write occurs. -/
theorem serveHTTP_status_mapping (mh : MessageHandlerModel) (body : Bytes) :
    ((ServeHTTP mh body).1.countP isErrorWrite ≤ 1)
    ∧ (∀ e, (mh.requestDecoders).2 body = Except.error e →
        (ServeHTTP mh body).1
          = [WriteEvent.errorWrite 400 ("Could not decode WRP message: " ++ e)])
    ∧ (∀ message contents deviceRequest re resp,
        (mh.requestDecoders).2 body = Except.ok message →
        deviceTranscode mh body message = Except.ok contents →
        mh.newRequest message contents = Except.ok deviceRequest →
        mh.route deviceRequest = (some re, resp) →
        (ServeHTTP mh body).1
          = [WriteEvent.errorWrite
              (if re = RouteError.deviceNotFound then 404 else 500)
              ("Could not process device request: " ++ re.text)])
    ∧ (∀ message contents deviceRequest deviceResponse ge,
        (mh.requestDecoders).2 body = Except.ok message →
        deviceTranscode mh body message = Except.ok contents →
        mh.newRequest message contents = Except.ok deviceRequest →
        mh.route deviceRequest = (none, some deviceResponse) →
        deviceResponse.error = some ge →
        (ServeHTTP mh body).1
          = [WriteEvent.errorWrite 500 "Device transaction failed: %!s(<nil>)"]) := by
  refine ⟨?_, ?_, ?_, ?_⟩
  · unfold ServeHTTP
    repeat' split
    all_goals simp [isErrorWrite]
  · intro e he
    simp [ServeHTTP, he]
  · intro message contents deviceRequest re resp h1 h2 h3 h4
    simp [ServeHTTP, h1, h2, h3, h4]
  · intro message contents deviceRequest deviceResponse ge h1 h2 h3 h4 h5
    simp [ServeHTTP, h1, h2, h3, h4, h5]

def msgW2 : Message := { destination := "mac:2", msgType := 4, payload := [] }

def mhW2a : MessageHandlerModel :=
  { requestDecoders := (Format.Msgpack, fun _ => Except.error "bad")
    deviceEncoders := none
    responseEncoders := none
    newRequest := fun m c => Except.ok { message := m, contents := c }
    route := fun _ => (none, none) }

def mhW2b : MessageHandlerModel :=
  { requestDecoders := (Format.Msgpack, fun _ => Except.ok msgW2)
    deviceEncoders := none
    responseEncoders := none
    newRequest := fun m c => Except.ok { message := m, contents := c }
    route := fun _ => (some RouteError.deviceNotFound, none) }

def respW2 : DeviceResponse :=
  { message := msgW2, contents := [], error := some { message := "boom" } }

def mhW2c : MessageHandlerModel :=
  { requestDecoders := (Format.Msgpack, fun _ => Except.ok msgW2)
    deviceEncoders := none
    responseEncoders := none
    newRequest := fun m c => Except.ok { message := m, contents := c }
    route := fun _ => (none, some respW2) }

theorem serveHTTP_status_mapping_witness :
    (ServeHTTP mhW2a [0]).1
      = [WriteEvent.errorWrite 400 "Could not decode WRP message: bad"]
    ∧ (ServeHTTP mhW2b [0]).1
      = [WriteEvent.errorWrite 404
          "Could not process device request: device not found"]
    ∧ (ServeHTTP mhW2c [0]).1
      = [WriteEvent.errorWrite 500 "Device transaction failed: %!s(<nil>)"] := by
  refine ⟨(serveHTTP_status_mapping mhW2a [0]).2.1 "bad" rfl, ?_, ?_⟩
  · have h := (serveHTTP_status_mapping mhW2b [0]).2.2.1 msgW2 [0]
      { message := msgW2, contents := [0] } RouteError.deviceNotFound none
      rfl rfl rfl rfl
    simpa using h
  · exact (serveHTTP_status_mapping mhW2c [0]).2.2.2 msgW2 [0]
      { message := msgW2, contents := [0] } respW2 { message := "boom" }
      rfl rfl rfl rfl rfl

def msgW3 : Message := { destination := "mac:3", msgType := 4, payload := [] }

def respW3a : DeviceResponse :=
  { message := msgW3, contents := []
    error := some { message := "device reported disk full" } }

def respW3b : DeviceResponse :=
  { message := msgW3, contents := []
    error := some { message := "device reported auth failure" } }

def mhW3a : MessageHandlerModel :=
  { requestDecoders := (Format.Msgpack, fun _ => Except.ok msgW3)
    deviceEncoders := none
    responseEncoders := none
    newRequest := fun m c => Except.ok { message := m, contents := c }
    route := fun _ => (none, some respW3a) }

def mhW3b : MessageHandlerModel :=
  { requestDecoders := (Format.Msgpack, fun _ => Except.ok msgW3)
    deviceEncoders := none
    responseEncoders := none
    newRequest := fun m c => Except.ok { message := m, contents := c }
    route := fun _ => (none, some respW3b) }

/-- C3, evaluated at the failing input: two routed responses carrying two
different device-reported errors produce the identical client message
"Device transaction failed: %!s(<nil>)" — handlers.go line 129 formats the
shadowed Route error `err`, which is provably nil in that branch, instead
of deviceResponse.Error, so the text written to the client never reflects
the device-reported error. -/
theorem serveHTTP_device_error_text_bug :
    respW3a.error ≠ respW3b.error
    ∧ (ServeHTTP mhW3a [0]).1
      = [WriteEvent.errorWrite 500 "Device transaction failed: %!s(<nil>)"]
    ∧ (ServeHTTP mhW3b [0]).1
      = [WriteEvent.errorWrite 500 "Device transaction failed: %!s(<nil>)"] := by
  exact ⟨by decide, rfl, rfl⟩

/-- C4 (amended): after a successful decode, when a device encoder pool is
configured the message is always re-encoded through that pool — regardless
of whether the pool's format equals the inbound format — and the encoder's
output becomes the contents forwarded to NewRequest; only when no device
encoder pool is configured are the original request-body bytes forwarded
verbatim. -/
theorem serveHTTP_device_transcode (mh : MessageHandlerModel) (body : Bytes)
    (message : Message)
    (h1 : (mh.requestDecoders).2 body = Except.ok message) :
    (mh.deviceEncoders = none → (ServeHTTP mh body).2 = some (message, body))
    ∧ (∀ df enc out, mh.deviceEncoders = some (df, enc) →
        enc message = Except.ok out →
        (ServeHTTP mh body).2 = some (message, out)) := by
  constructor
  · intro hn
    exact serveHTTP_forwarded mh body message body h1
      (by simp [deviceTranscode, hn])
  · intro df enc out hs henc
    exact serveHTTP_forwarded mh body message out h1
      (by simp [deviceTranscode, hs, henc])

def msgW4 : Message := { destination := "mac:4", msgType := 4, payload := [] }

def encW4 : Message → Except String Bytes := fun _ => Except.ok [9, 9]

def mhW4 : MessageHandlerModel :=
  { requestDecoders := (Format.Msgpack, fun _ => Except.ok msgW4)
    deviceEncoders := some (Format.Msgpack, encW4)
    responseEncoders := none
    newRequest := fun m c => Except.ok { message := m, contents := c }
    route := fun _ => (none, none) }

def mhW4b : MessageHandlerModel :=
  { requestDecoders := (Format.Msgpack, fun _ => Except.ok msgW4)
    deviceEncoders := none
    responseEncoders := none
    newRequest := fun m c => Except.ok { message := m, contents := c }
    route := fun _ => (none, none) }

/-- C4 counterexample: the inbound decoder pool and the device encoder pool
have the same format (Msgpack) and the inbound bytes [1,2,3] decode
successfully, yet ServeHTTP forwards the re-encoded bytes [9,9] rather than
the inbound bytes: handlers.go lines 85-97 truncate and re-encode whenever
DeviceEncoders is non-nil, never comparing formats, so "re-encoded only
when the device format differs from the inbound format" is false. -/
theorem serveHTTP_device_transcode_cex :
    (mhW4.requestDecoders).1 = Format.Msgpack
    ∧ mhW4.deviceEncoders.map Prod.fst = some Format.Msgpack
    ∧ (ServeHTTP mhW4 [1, 2, 3]).2 = some (msgW4, [9, 9])
    ∧ ¬ (ServeHTTP mhW4 [1, 2, 3]).2 = some (msgW4, [1, 2, 3]) := by
  exact ⟨rfl, rfl, rfl, by decide⟩

theorem serveHTTP_device_transcode_witness :
    (ServeHTTP mhW4b [7]).2 = some (msgW4, [7])
    ∧ (ServeHTTP mhW4 [1, 2, 3]).2 = some (msgW4, [9, 9]) :=
  ⟨(serveHTTP_device_transcode mhW4b [7] msgW4 rfl).1 rfl,
   (serveHTTP_device_transcode mhW4 [1, 2, 3] msgW4 rfl).2
     Format.Msgpack encW4 [9, 9] rfl rfl⟩

/-- C8: when Router.Route returns a nil response and a nil error, ServeHTTP
writes nothing at all — no status code, no header, no body, no log — so the
request falls through to the HTTP framework's default empty success
response. -/
theorem serveHTTP_nil_nil_writes_nothing (mh : MessageHandlerModel)
    (body : Bytes) (message : Message) (contents : Bytes)
    (deviceRequest : DeviceRequest)
    (h1 : (mh.requestDecoders).2 body = Except.ok message)
    (h2 : deviceTranscode mh body message = Except.ok contents)
    (h3 : mh.newRequest message contents = Except.ok deviceRequest)
    (h4 : mh.route deviceRequest = (none, none)) :
    (ServeHTTP mh body).1 = [] := by
  simp [ServeHTTP, h1, h2, h3, h4]

def msgW8 : Message := { destination := "mac:8", msgType := 4, payload := [] }

def mhW8 : MessageHandlerModel :=
  { requestDecoders := (Format.Msgpack, fun _ => Except.ok msgW8)
    deviceEncoders := none
    responseEncoders := none
    newRequest := fun m c => Except.ok { message := m, contents := c }
    route := fun _ => (none, none) }

theorem serveHTTP_nil_nil_writes_nothing_witness :
    (ServeHTTP mhW8 [1]).1 = [] :=
  serveHTTP_nil_nil_writes_nothing mhW8 [1] msgW8 [1]
    { message := msgW8, contents := [1] } rfl rfl rfl rfl
